import Mathlib

/-!
Shallow embedding of the gesture-to-note core of the PianoIA repository
(src/hand_detector.py and src/piano_module.py).

Conventions of the embedding:
* Timestamps are rationals (the Python code reads `time.time()`; the spec
  treats it as an abstract timestamp passed once per frame).
* A landmark is the `[id, px, py]` triple built by
  `HandDetector.find_positions`; Python indexing `[1]` / `[2]` becomes the
  `x` / `y` fields.  Out-of-range indexing (an exception in Python) is
  modelled with `List.getD` and a default landmark; every theorem that
  inspects landmark coordinates restricts the list to the well-formed
  lengths (21 landmarks, or the empty list of an absent hand).
* The spec-level NoteOff event corresponds to the falling-edge branch of
  `PianoModule.process` (lines 158-163 / 197-202), which deactivates the
  key for that finger; NoteOn corresponds to the `play_note` call on a
  rising edge, Chord to the `play_chord` call on a fist-closing edge.
* Visualization state (key rectangles, colors) is not modelled; no claim
  mentions it beyond the events above.
-/

/-- One entry of the `landmark_list` built by `HandDetector.find_positions`:
`[id, px, py]`. -/
structure Landmark where
  id : Nat
  x : Int
  y : Int
  deriving DecidableEq

/-- What one iteration of the hand loop in `PianoModule.process` receives
from `HandDetector.find_positions`: the landmark list and the hand label
(`None` when no hand is detected at that index). -/
structure HandObservation where
  landmarks : List Landmark
  hand_type : Option String
  deriving DecidableEq

/-- Spec-level note events (§3 of the spec): NoteOn = `play_note` call on a
rising edge, NoteOff = key deactivation on a falling edge, Chord =
`play_chord` call on a fist-closing edge. -/
inductive NoteEvent where
  | noteOn (note : String)
  | noteOff (note : String)
  | chord (notes : List String)
  deriving DecidableEq

/-- The mutable per-session state of `PianoModule` (its `__init__`, lines
27-37), minus the visualization key records. -/
structure PianoState where
  previous_fingers_right : List Bool
  previous_fingers_left : List Bool
  last_chord_time : Rat
  last_fist_right : Bool
  last_fist_left : Bool
  deriving DecidableEq

/-- `self.right_hand_notes = ['la4', 'si4', 'do5', 're5', 'mi5']`. -/
def right_hand_notes : List String := ["la4", "si4", "do5", "re5", "mi5"]

/-- `self.left_hand_notes = ['do4', 're4', 'mi4', 'fa4', 'sol4']`. -/
def left_hand_notes : List String := ["do4", "re4", "mi4", "fa4", "sol4"]

/-- `self.chord_cooldown = 1.0`. -/
def chord_cooldown : Rat := 1

/-- The initial state set by `PianoModule.__init__`: both previous finger
vectors all zero, `last_chord_time = 0`, both fist flags `False`. -/
def initState : PianoState :=
  { previous_fingers_right := [false, false, false, false, false]
    previous_fingers_left := [false, false, false, false, false]
    last_chord_time := 0
    last_fist_right := false
    last_fist_left := false }

/-- `self.finger_tips = [4, 8, 12, 16, 20]` in `HandDetector.__init__`. -/
def finger_tips : List Nat := [4, 8, 12, 16, 20]

/-- `self.finger_bases = [2, 5, 9, 13, 17]` in `HandDetector.__init__`. -/
def finger_bases : List Nat := [2, 5, 9, 13, 17]

/-- Python `landmark_list[i]`, with a default landmark standing in for the
IndexError case (never reached on the 21-landmark lists the claims use). -/
def lmGet (landmark_list : List Landmark) (i : Nat) : Landmark :=
  landmark_list.getD i ⟨0, 0, 0⟩

/-- `HandDetector.fingers_up` (hand_detector.py lines 123-159).  Returns the
five finger flags: the thumb by an x comparison that depends on the hand
side, the remaining four fingers (the Python loop `for id in range(1, 5)`,
unrolled here) by comparing the tip's y to the y of the landmark two
positions below the tip. -/
def fingers_up (landmark_list : List Landmark) (hand_type : String) : List Bool :=
  if landmark_list = [] then [false, false, false, false, false]
  else
    let thumb : Bool :=
      if hand_type = "Right" then
        decide ((lmGet landmark_list (finger_tips.getD 0 0)).x
          < (lmGet landmark_list (finger_bases.getD 0 0)).x)
      else
        decide ((lmGet landmark_list (finger_tips.getD 0 0)).x
          > (lmGet landmark_list (finger_bases.getD 0 0)).x)
    let other : Nat → Bool := fun id =>
      decide ((lmGet landmark_list (finger_tips.getD id 0)).y
        < (lmGet landmark_list (finger_tips.getD id 0 - 2)).y)
    [thumb, other 1, other 2, other 3, other 4]

/-- `HandDetector.is_fist`: `sum(fingers) == 0`, i.e. no finger raised. -/
def is_fist (fingers : List Bool) : Bool :=
  fingers.count true == 0

/-- The per-finger edge loop of `PianoModule.process`
(`for idx, finger_up in enumerate(fingers)`, lines 147-163 / 186-202):
a rising edge appends NoteOn of the note at that index, a falling edge
appends NoteOff of it, otherwise nothing.  `notes` is the indexed note
list the branch uses (`right_hand_notes` for Right,
`list(left_hand_notes)[::-1]` for Left); `idx` is the enumeration
counter. -/
def finger_note_events (notes : List String) (prev : List Bool) :
    List Bool → Nat → List NoteEvent
  | [], _ => []
  | finger_up :: rest, idx =>
    let tail := finger_note_events notes prev rest (idx + 1)
    if finger_up = true ∧ prev.getD idx false = false then
      NoteEvent.noteOn (notes.getD idx "") :: tail
    else if finger_up = false ∧ prev.getD idx false = true then
      NoteEvent.noteOff (notes.getD idx "") :: tail
    else tail

/-- The `hand_type == "Right"` branch of `PianoModule.process`
(lines 145-182): finger edges against `previous_fingers_right`, then the
chord trigger guarded by `is_fist and not last_fist_right and
current_time - last_chord_time > chord_cooldown`, then the state update
`previous_fingers_right := fingers; last_fist_right := is_fist`. -/
def process_hand_right (st : PianoState) (fingers : List Bool)
    (current_time : Rat) : List NoteEvent × PianoState :=
  let note_evs := finger_note_events right_hand_notes st.previous_fingers_right fingers 0
  let fist := is_fist fingers
  let chord_part : List NoteEvent × Rat :=
    if fist = true ∧ st.last_fist_right = false ∧
        current_time - st.last_chord_time > chord_cooldown then
      ([NoteEvent.chord right_hand_notes], current_time)
    else
      ([], st.last_chord_time)
  (note_evs ++ chord_part.1,
   { st with
      previous_fingers_right := fingers
      last_fist_right := fist
      last_chord_time := chord_part.2 })

/-- The `hand_type == "Left"` branch of `PianoModule.process`
(lines 184-221): identical shape, but note lookup goes through
`list(left_hand_notes)[::-1]` and the chord plays `left_hand_notes`. -/
def process_hand_left (st : PianoState) (fingers : List Bool)
    (current_time : Rat) : List NoteEvent × PianoState :=
  let note_evs := finger_note_events left_hand_notes.reverse st.previous_fingers_left fingers 0
  let fist := is_fist fingers
  let chord_part : List NoteEvent × Rat :=
    if fist = true ∧ st.last_fist_left = false ∧
        current_time - st.last_chord_time > chord_cooldown then
      ([NoteEvent.chord left_hand_notes], current_time)
    else
      ([], st.last_chord_time)
  (note_evs ++ chord_part.1,
   { st with
      previous_fingers_left := fingers
      last_fist_left := fist
      last_chord_time := chord_part.2 })

/-- One iteration of the hand loop in `PianoModule.process` (lines
127-221): the body runs only under `if landmark_list and hand_type`; a
label other than "Right"/"Left" matches neither branch and leaves the
state untouched. -/
def process_observation (st : PianoState) (current_time : Rat)
    (obs : HandObservation) : List NoteEvent × PianoState :=
  match obs.hand_type with
  | none => ([], st)
  | some ht =>
    if obs.landmarks = [] ∨ ht = "" then ([], st)
    else
      let fingers := fingers_up obs.landmarks ht
      if ht = "Right" then process_hand_right st fingers current_time
      else if ht = "Left" then process_hand_left st fingers current_time
      else ([], st)

/-- Sequential processing of the observation list, accumulating events in
emission order while threading the state, as the Python `for hand_idx in
range(2)` loop does. -/
def process_hands (current_time : Rat) :
    PianoState → List HandObservation → List NoteEvent × PianoState
  | st, [] => ([], st)
  | st, obs :: rest =>
    let r := process_observation st current_time obs
    let r2 := process_hands current_time r.2 rest
    (r.1 ++ r2.1, r2.2)

/-- `PianoModule.process` for one frame: the loop `for hand_idx in
range(2)` examines at most the first two detected observations. -/
def process_frame (st : PianoState) (observations : List HandObservation)
    (current_time : Rat) : List NoteEvent × PianoState :=
  process_hands current_time st (observations.take 2)

/-- The note the code plays for finger `i` of a side: `right_hand_notes[idx]`
in the Right branch (line 150), `list(left_hand_notes)[::-1][idx]` in the
Left branch (line 189). -/
def note_for (side : String) (i : Nat) : String :=
  if side = "Right" then right_hand_notes.getD i ""
  else left_hand_notes.reverse.getD i ""

/-- The note frequency table of `SoundPlayer._generate_notes`
(sound_player.py lines 34-37).  The Python table stores Hz with two
decimals (261.63, ...); here each frequency is the exact integer number of
centihertz (hundredths of Hz), which preserves all orderings. -/
def note_freqs : List (String × Nat) :=
  [("do4", 26163), ("re4", 29366), ("mi4", 32963),
   ("fa4", 34923), ("sol4", 39200), ("la4", 44000), ("si4", 49388),
   ("do5", 52325), ("re5", 58733), ("mi5", 65926)]

/-- Frequency lookup into `note_freqs`, in centihertz (0 for an unknown
name). -/
def freq (note : String) : Nat :=
  ((note_freqs.find? (fun p => p.1 == note)).map (fun p => p.2)).getD 0

/-- Recognizer for Chord events. -/
def isChord : NoteEvent → Bool
  | NoteEvent.chord _ => true
  | _ => false

/-- Recognizer for NoteOn or NoteOff events. -/
def isNoteOnOff : NoteEvent → Bool
  | NoteEvent.noteOn _ => true
  | NoteEvent.noteOff _ => true
  | NoteEvent.chord _ => false

/-- The fixed note list of a side. -/
def side_notes (side : String) : List String :=
  if side = "Right" then right_hand_notes else left_hand_notes

/-- An event belongs to a side when its note(s) come from that side's
fixed note list (the two lists are disjoint). -/
def side_event (side : String) : NoteEvent → Bool
  | NoteEvent.noteOn n => (side_notes side).contains n
  | NoteEvent.noteOff n => (side_notes side).contains n
  | NoteEvent.chord ns => ns == side_notes side

/-- The stored previous finger vector of a side. -/
def side_prev_fingers (st : PianoState) (side : String) : List Bool :=
  if side = "Right" then st.previous_fingers_right else st.previous_fingers_left

/-- The stored previous fist flag of a side. -/
def side_last_fist (st : PianoState) (side : String) : Bool :=
  if side = "Right" then st.last_fist_right else st.last_fist_left

/-- A concrete 21-landmark right hand with every finger extended:
thumb tip x (-4) is left of the thumb base x (-2), each fingertip y is
above (smaller than) the joint two positions below it. -/
def open_right_hand : List Landmark :=
  (List.range 21).map (fun i => ⟨i, -(i : Int), -(i : Int)⟩)

/-- A concrete 21-landmark right hand with every finger down. -/
def closed_right_hand : List Landmark :=
  (List.range 21).map (fun i => ⟨i, (i : Int), (i : Int)⟩)

/-- A concrete 21-landmark left hand with every finger extended. -/
def open_left_hand : List Landmark :=
  (List.range 21).map (fun i => ⟨i, (i : Int), -(i : Int)⟩)

/-- A concrete 21-landmark left hand with every finger down. -/
def closed_left_hand : List Landmark :=
  (List.range 21).map (fun i => ⟨i, -(i : Int), (i : Int)⟩)

/-- Observation: an open right hand. -/
def obs_open_right : HandObservation := ⟨open_right_hand, some "Right"⟩

/-- Observation: a closed right hand (fist). -/
def obs_closed_right : HandObservation := ⟨closed_right_hand, some "Right"⟩

/-- Observation: an open left hand. -/
def obs_open_left : HandObservation := ⟨open_left_hand, some "Left"⟩

/-- Observation: a closed left hand (fist). -/
def obs_closed_left : HandObservation := ⟨closed_left_hand, some "Left"⟩

/-- The side for which an observation is actually processed by the hand
loop: its label must be "Right" or "Left" and its landmark list nonempty;
otherwise no branch of `PianoModule.process` touches the state. -/
def processed_side (o : HandObservation) : Option String :=
  match o.hand_type with
  | none => none
  | some ht =>
    if o.landmarks ≠ [] ∧ (ht = "Right" ∨ ht = "Left") then some ht else none

example : fingers_up open_right_hand "Right" = [true, true, true, true, true] := by decide
example : fingers_up closed_right_hand "Right" = [false, false, false, false, false] := by decide
example : fingers_up open_left_hand "Left" = [true, true, true, true, true] := by decide
example : fingers_up closed_left_hand "Left" = [false, false, false, false, false] := by decide

/-! ### Helper lemmas -/

/-- A list of length 5 is a five-element literal. -/
theorem list_len5 {α : Type} {l : List α} (h : l.length = 5) :
    ∃ a b c d e, l = [a, b, c, d, e] := by
  rcases l with _ | ⟨a, _ | ⟨b, _ | ⟨c, _ | ⟨d, _ | ⟨e, _ | ⟨f, tl⟩⟩⟩⟩⟩⟩ <;>
    simp only [List.length_cons, List.length_nil] at h
  · omega
  · omega
  · omega
  · omega
  · omega
  · exact ⟨a, b, c, d, e, rfl⟩
  · omega

/-- `fingers_up` always returns five flags. -/
theorem fingers_up_length (l : List Landmark) (ht : String) :
    (fingers_up l ht).length = 5 := by
  unfold fingers_up
  split <;> simp

/-- The finger-edge loop never emits a Chord event. -/
theorem finger_note_events_countP_chord (notes : List String) (prev : List Bool) :
    ∀ (fingers : List Bool) (idx : Nat),
      (finger_note_events notes prev fingers idx).countP isChord = 0 := by
  intro fingers
  induction fingers with
  | nil => intro idx; simp [finger_note_events]
  | cons f rest ih =>
    intro idx
    simp only [finger_note_events]
    split
    · simp [List.countP_cons, isChord, ih (idx + 1)]
    · split
      · simp [List.countP_cons, isChord, ih (idx + 1)]
      · exact ih (idx + 1)

/-- Every event of the finger-edge loop is a NoteOn or NoteOff of the note
at some enumeration index within range. -/
theorem mem_finger_note_events {notes : List String} {prev : List Bool} :
    ∀ {fingers : List Bool} {idx : Nat} {ev : NoteEvent},
      ev ∈ finger_note_events notes prev fingers idx →
      ∃ j, idx ≤ j ∧ j < idx + fingers.length ∧
        (ev = NoteEvent.noteOn (notes.getD j "") ∨
         ev = NoteEvent.noteOff (notes.getD j "")) := by
  intro fingers
  induction fingers with
  | nil => intro idx ev h; simp [finger_note_events] at h
  | cons f rest ih =>
    intro idx ev h
    simp only [finger_note_events] at h
    have hlen : (f :: rest).length = rest.length + 1 := by simp
    split at h
    · rcases List.mem_cons.mp h with he | ht
      · exact ⟨idx, le_refl _, by simp only [List.length_cons]; omega, Or.inl he⟩
      · obtain ⟨j, h1, h2, h3⟩ := ih ht
        exact ⟨j, by omega, by simp only [List.length_cons]; omega, h3⟩
    · split at h
      · rcases List.mem_cons.mp h with he | ht
        · exact ⟨idx, le_refl _, by simp only [List.length_cons]; omega, Or.inr he⟩
        · obtain ⟨j, h1, h2, h3⟩ := ih ht
          exact ⟨j, by omega, by simp only [List.length_cons]; omega, h3⟩
      · obtain ⟨j, h1, h2, h3⟩ := ih h
        exact ⟨j, by omega, by simp only [List.length_cons]; omega, h3⟩

/-- When the stored previous vector already equals the current one (shifted
by the enumeration offset), the finger-edge loop emits nothing. -/
theorem finger_note_events_self (notes : List String) (prev : List Bool) :
    ∀ (fingers : List Bool) (idx : Nat),
      (∀ k, prev.getD (idx + k) false = fingers.getD k false) →
      finger_note_events notes prev fingers idx = [] := by
  intro fingers
  induction fingers with
  | nil => intro idx _; simp [finger_note_events]
  | cons f rest ih =>
    intro idx h
    have h0 : prev.getD idx false = f := by simpa using h 0
    have htail : ∀ k, prev.getD (idx + 1 + k) false = rest.getD k false := by
      intro k
      have hk := h (k + 1)
      have heq : idx + (k + 1) = idx + 1 + k := by omega
      rw [heq] at hk
      simpa using hk
    simp only [finger_note_events, h0]
    rw [if_neg (by rintro ⟨a, b⟩; subst a; simp at b),
      if_neg (by rintro ⟨a, b⟩; subst a; simp at b)]
    exact ih (idx + 1) htail

/-- The shared cooldown gate is never passed at zero elapsed time. -/
theorem not_zero_elapsed (t : Rat) : ¬ (t - t > chord_cooldown) := by
  rw [sub_self, chord_cooldown]
  norm_num

/-- An observation processed for no side leaves the state untouched and
emits nothing. -/
theorem process_observation_not_processed (st : PianoState) (t : Rat)
    (o : HandObservation) (h : processed_side o = none) :
    process_observation st t o = ([], st) := by
  rcases o with ⟨lms, ht⟩
  rcases ht with _ | ht
  · rfl
  · simp only [processed_side] at h
    split at h
    · exact absurd h (by simp)
    · rename_i hcond
      simp only [process_observation]
      by_cases hl : lms = []
      · rw [if_pos (Or.inl hl)]
      · by_cases he : ht = ""
        · rw [if_pos (Or.inr he)]
        · have hRL : ¬(ht = "Right" ∨ ht = "Left") := fun hx => hcond ⟨hl, hx⟩
          rw [if_neg (fun hx => hx.elim hl he),
            if_neg (fun hx => hRL (Or.inl hx)), if_neg (fun hx => hRL (Or.inr hx))]

/-- An observation processed for a side runs exactly the matching hand
branch on the extracted finger vector. -/
theorem process_observation_processed (st : PianoState) (t : Rat)
    (o : HandObservation) (s : String) (h : processed_side o = some s) :
    o.hand_type = some s ∧ o.landmarks ≠ [] ∧
    ((s = "Right" ∧ process_observation st t o =
        process_hand_right st (fingers_up o.landmarks "Right") t) ∨
     (s = "Left" ∧ process_observation st t o =
        process_hand_left st (fingers_up o.landmarks "Left") t)) := by
  rcases o with ⟨lms, ht⟩
  rcases ht with _ | ht
  · simp [processed_side] at h
  · simp only [processed_side] at h
    split at h
    · rename_i hcond
      obtain ⟨hl, hRL⟩ := hcond
      have hts : ht = s := by simpa using h
      subst hts
      refine ⟨rfl, hl, ?_⟩
      rcases hRL with hR | hLft
      · subst hR
        refine Or.inl ⟨rfl, ?_⟩
        simp only [process_observation]
        rw [if_neg (fun hx => hx.elim hl (fun he => absurd he (by decide))),
          if_pos trivial]
      · subst hLft
        refine Or.inr ⟨rfl, ?_⟩
        simp only [process_observation]
        rw [if_neg (fun hx => hx.elim hl (fun he => absurd he (by decide))),
          if_neg (by decide), if_pos trivial]
    · exact absurd h (by simp)

/-- Chord bookkeeping of the Right branch: the branch emits at most one
Chord, and it writes `last_chord_time := current_time` exactly when it
does. -/
theorem process_hand_right_chord (st : PianoState) (fingers : List Bool) (t : Rat) :
    ((process_hand_right st fingers t).1.countP isChord = 0 →
      (process_hand_right st fingers t).2.last_chord_time = st.last_chord_time) ∧
    ((process_hand_right st fingers t).1.countP isChord ≠ 0 →
      (process_hand_right st fingers t).2.last_chord_time = t) ∧
    (process_hand_right st fingers t).1.countP isChord ≤ 1 := by
  simp only [process_hand_right]
  split
  · simp [List.countP_append, finger_note_events_countP_chord, List.countP_cons, isChord]
  · simp [List.countP_append, finger_note_events_countP_chord]

/-- Chord bookkeeping of the Left branch. -/
theorem process_hand_left_chord (st : PianoState) (fingers : List Bool) (t : Rat) :
    ((process_hand_left st fingers t).1.countP isChord = 0 →
      (process_hand_left st fingers t).2.last_chord_time = st.last_chord_time) ∧
    ((process_hand_left st fingers t).1.countP isChord ≠ 0 →
      (process_hand_left st fingers t).2.last_chord_time = t) ∧
    (process_hand_left st fingers t).1.countP isChord ≤ 1 := by
  simp only [process_hand_left]
  split
  · simp [List.countP_append, finger_note_events_countP_chord, List.countP_cons, isChord]
  · simp [List.countP_append, finger_note_events_countP_chord]

/-- When the cooldown gate fails, the Right branch emits no Chord and the
timer is untouched. -/
theorem process_hand_right_no_chord (st : PianoState) (fingers : List Bool)
    (t : Rat) (h : ¬ t - st.last_chord_time > chord_cooldown) :
    (process_hand_right st fingers t).1.countP isChord = 0 ∧
    (process_hand_right st fingers t).2.last_chord_time = st.last_chord_time := by
  simp only [process_hand_right]
  rw [if_neg (by rintro ⟨-, -, hx⟩; exact h hx)]
  simp [List.countP_append, finger_note_events_countP_chord]

/-- When the cooldown gate fails, the Left branch emits no Chord and the
timer is untouched. -/
theorem process_hand_left_no_chord (st : PianoState) (fingers : List Bool)
    (t : Rat) (h : ¬ t - st.last_chord_time > chord_cooldown) :
    (process_hand_left st fingers t).1.countP isChord = 0 ∧
    (process_hand_left st fingers t).2.last_chord_time = st.last_chord_time := by
  simp only [process_hand_left]
  rw [if_neg (by rintro ⟨-, -, hx⟩; exact h hx)]
  simp [List.countP_append, finger_note_events_countP_chord]

/-- Chord bookkeeping of a single observation. -/
theorem process_observation_chord (st : PianoState) (t : Rat) (o : HandObservation) :
    ((process_observation st t o).1.countP isChord = 0 →
      (process_observation st t o).2.last_chord_time = st.last_chord_time) ∧
    ((process_observation st t o).1.countP isChord ≠ 0 →
      (process_observation st t o).2.last_chord_time = t) ∧
    (process_observation st t o).1.countP isChord ≤ 1 := by
  rcases hps : processed_side o with _ | s
  · rw [process_observation_not_processed st t o hps]
    simp
  · obtain ⟨-, -, hcase⟩ := process_observation_processed st t o s hps
    rcases hcase with ⟨-, heq⟩ | ⟨-, heq⟩
    · rw [heq]; exact process_hand_right_chord st (fingers_up o.landmarks "Right") t
    · rw [heq]; exact process_hand_left_chord st (fingers_up o.landmarks "Left") t

/-- When the cooldown gate fails, a single observation emits no Chord and
the timer is untouched. -/
theorem process_observation_no_chord (st : PianoState) (t : Rat)
    (o : HandObservation) (h : ¬ t - st.last_chord_time > chord_cooldown) :
    (process_observation st t o).1.countP isChord = 0 ∧
    (process_observation st t o).2.last_chord_time = st.last_chord_time := by
  rcases hps : processed_side o with _ | s
  · rw [process_observation_not_processed st t o hps]
    simp
  · obtain ⟨-, -, hcase⟩ := process_observation_processed st t o s hps
    rcases hcase with ⟨-, heq⟩ | ⟨-, heq⟩
    · rw [heq]; exact process_hand_right_no_chord st (fingers_up o.landmarks "Right") t h
    · rw [heq]; exact process_hand_left_no_chord st (fingers_up o.landmarks "Left") t h

/-- The Right branch only emits Right-side events: nothing it emits is a
Left-side event. -/
theorem process_hand_right_events_not_left (st : PianoState) (fingers : List Bool)
    (t : Rat) (hf : fingers.length = 5) :
    ∀ ev ∈ (process_hand_right st fingers t).1, side_event "Left" ev = false := by
  intro ev hev
  simp only [process_hand_right] at hev
  rcases List.mem_append.mp hev with hn | hc
  · obtain ⟨j, hj1, hj2, hj3⟩ := mem_finger_note_events hn
    rw [hf] at hj2
    have hj5 : j < 5 := by omega
    rcases hj3 with h3 | h3 <;> subst h3 <;> interval_cases j <;> decide
  · split at hc
    · have : ev = NoteEvent.chord right_hand_notes := by simpa using hc
      subst this
      decide
    · simp at hc

/-- The Left branch only emits Left-side events: nothing it emits is a
Right-side event. -/
theorem process_hand_left_events_not_right (st : PianoState) (fingers : List Bool)
    (t : Rat) (hf : fingers.length = 5) :
    ∀ ev ∈ (process_hand_left st fingers t).1, side_event "Right" ev = false := by
  intro ev hev
  simp only [process_hand_left] at hev
  rcases List.mem_append.mp hev with hn | hc
  · obtain ⟨j, hj1, hj2, hj3⟩ := mem_finger_note_events hn
    rw [hf] at hj2
    have hj5 : j < 5 := by omega
    rcases hj3 with h3 | h3 <;> subst h3 <;> interval_cases j <;> decide
  · split at hc
    · have : ev = NoteEvent.chord left_hand_notes := by simpa using hc
      subst this
      decide
    · simp at hc

/-- An observation that is not processed for a given side leaves that
side's stored state untouched and emits no event of that side. -/
theorem process_observation_preserves_side (st : PianoState) (t : Rat)
    (o : HandObservation) (side : String)
    (hside : side = "Right" ∨ side = "Left")
    (h : ¬(o.hand_type = some side ∧ o.landmarks ≠ [])) :
    side_prev_fingers (process_observation st t o).2 side = side_prev_fingers st side ∧
    side_last_fist (process_observation st t o).2 side = side_last_fist st side ∧
    ∀ ev ∈ (process_observation st t o).1, side_event side ev = false := by
  rcases hps : processed_side o with _ | s
  · rw [process_observation_not_processed st t o hps]
    simp
  · obtain ⟨hht, hlm, hcase⟩ := process_observation_processed st t o s hps
    rcases hcase with ⟨hs, heq⟩ | ⟨hs, heq⟩
    · subst hs
      have hsideL : side = "Left" := by
        rcases hside with h1 | h1
        · exact absurd ⟨by rw [h1]; exact hht, hlm⟩ h
        · exact h1
      subst hsideL
      rw [heq]
      refine ⟨?_, ?_,
        process_hand_right_events_not_left st _ t (fingers_up_length _ _)⟩
      · show (process_hand_right st _ t).2.previous_fingers_left = _
        simp [process_hand_right]
        rfl
      · show (process_hand_right st _ t).2.last_fist_left = _
        simp [process_hand_right]
        rfl
    · subst hs
      have hsideR : side = "Right" := by
        rcases hside with h1 | h1
        · exact h1
        · exact absurd ⟨by rw [h1]; exact hht, hlm⟩ h
      subst hsideR
      rw [heq]
      refine ⟨?_, ?_,
        process_hand_left_events_not_right st _ t (fingers_up_length _ _)⟩
      · show (process_hand_left st _ t).2.previous_fingers_right = _
        simp [process_hand_left]
        rfl
      · show (process_hand_left st _ t).2.last_fist_right = _
        simp [process_hand_left]
        rfl

/-- Sequential processing of observations, none of which is processed for
the given side, leaves that side's stored state untouched and emits no
event of that side. -/
theorem process_hands_preserves_side (t : Rat) (side : String)
    (hside : side = "Right" ∨ side = "Left") :
    ∀ (l : List HandObservation) (st : PianoState),
      (∀ o ∈ l, ¬(o.hand_type = some side ∧ o.landmarks ≠ [])) →
      side_prev_fingers (process_hands t st l).2 side = side_prev_fingers st side ∧
      side_last_fist (process_hands t st l).2 side = side_last_fist st side ∧
      ∀ ev ∈ (process_hands t st l).1, side_event side ev = false := by
  intro l
  induction l with
  | nil => intro st _; simp [process_hands]
  | cons o rest ih =>
    intro st h
    have ho := process_observation_preserves_side st t o side hside (h o (by simp))
    have hr := ih (process_observation st t o).2 (fun o' ho' => h o' (by simp [ho']))
    simp only [process_hands]
    refine ⟨by rw [hr.1, ho.1], by rw [hr.2.1, ho.2.1], ?_⟩
    intro ev hev
    rcases List.mem_append.mp hev with h1 | h2
    · exact ho.2.2 ev h1
    · exact hr.2.2 ev h2

/-- Re-running the Right branch with the fingers it just stored emits
nothing and fixes the state. -/
theorem process_hand_right_self (st : PianoState) (f : List Bool) (t : Rat)
    (h1 : st.previous_fingers_right = f) (h2 : st.last_fist_right = is_fist f) :
    process_hand_right st f t = ([], st) := by
  subst h1
  have hn : finger_note_events right_hand_notes st.previous_fingers_right
      st.previous_fingers_right 0 = [] :=
    finger_note_events_self _ _ _ _ (fun k => by simp)
  simp only [process_hand_right, hn, List.nil_append]
  rw [if_neg (by rintro ⟨ha, hb, -⟩; rw [h2, ha] at hb; simp at hb)]
  rw [← h2]

/-- Re-running the Left branch with the fingers it just stored emits
nothing and fixes the state. -/
theorem process_hand_left_self (st : PianoState) (f : List Bool) (t : Rat)
    (h1 : st.previous_fingers_left = f) (h2 : st.last_fist_left = is_fist f) :
    process_hand_left st f t = ([], st) := by
  subst h1
  have hn : finger_note_events left_hand_notes.reverse st.previous_fingers_left
      st.previous_fingers_left 0 = [] :=
    finger_note_events_self _ _ _ _ (fun k => by simp)
  simp only [process_hand_left, hn, List.nil_append]
  rw [if_neg (by rintro ⟨ha, hb, -⟩; rw [h2, ha] at hb; simp at hb)]
  rw [← h2]

/-- A processed observation stores its extracted finger vector and fist
flag into its side's state fields. -/
theorem process_observation_sets_side (st : PianoState) (t : Rat)
    (o : HandObservation) (s : String) (h : processed_side o = some s) :
    side_prev_fingers (process_observation st t o).2 s = fingers_up o.landmarks s ∧
    side_last_fist (process_observation st t o).2 s = is_fist (fingers_up o.landmarks s) := by
  obtain ⟨hht, hlm, hcase⟩ := process_observation_processed st t o s h
  rcases hcase with ⟨hs, heq⟩ | ⟨hs, heq⟩ <;> subst hs <;> rw [heq] <;>
    exact ⟨rfl, rfl⟩

/-- When a side's stored state already matches what an observation would
store, processing that observation is a no-op. -/
theorem process_observation_self (st : PianoState) (t : Rat)
    (o : HandObservation) (s : String) (h : processed_side o = some s)
    (h1 : side_prev_fingers st s = fingers_up o.landmarks s)
    (h2 : side_last_fist st s = is_fist (fingers_up o.landmarks s)) :
    process_observation st t o = ([], st) := by
  obtain ⟨hht, hlm, hcase⟩ := process_observation_processed st t o s h
  rcases hcase with ⟨hs, heq⟩ | ⟨hs, heq⟩
  · subst hs
    rw [heq]
    exact process_hand_right_self st _ t h1 h2
  · subst hs
    rw [heq]
    exact process_hand_left_self st _ t h1 h2

/-- Re-running a whole observation list whose processed sides are pairwise
distinct, right after a first run, emits nothing and fixes the state. -/
theorem process_hands_replay (t : Rat) :
    ∀ (l : List HandObservation) (st : PianoState),
      (l.filterMap processed_side).Nodup →
      process_hands t (process_hands t st l).2 l = ([], (process_hands t st l).2) := by
  intro l
  induction l with
  | nil => intro st _; rfl
  | cons o rest ih =>
    intro st h
    rcases hps : processed_side o with _ | s
    · have htail_nodup : (rest.filterMap processed_side).Nodup := by
        simpa [List.filterMap_cons, hps] using h
      have hid : ∀ st', process_observation st' t o = ([], st') :=
        fun st' => process_observation_not_processed st' t o hps
      have hr := ih st htail_nodup
      simp only [process_hands, hid, List.nil_append]
      rw [hr]
    · have hcons : (rest.filterMap processed_side).Nodup ∧
          s ∉ rest.filterMap processed_side := by
        have hx := (by simpa [List.filterMap_cons, hps] using h :
          (s :: rest.filterMap processed_side).Nodup)
        exact ⟨(List.nodup_cons.mp hx).2, (List.nodup_cons.mp hx).1⟩
      obtain ⟨hht, hlm, hcase⟩ := process_observation_processed st t o s hps
      have hsRL : s = "Right" ∨ s = "Left" := by
        rcases hcase with ⟨hs, -⟩ | ⟨hs, -⟩
        · exact Or.inl hs
        · exact Or.inr hs
      have hrest_nos : ∀ o' ∈ rest, ¬(o'.hand_type = some s ∧ o'.landmarks ≠ []) := by
        intro o' ho' hco
        apply hcons.2
        refine List.mem_filterMap.mpr ⟨o', ho', ?_⟩
        obtain ⟨hh', hl'⟩ := hco
        simp only [processed_side, hh']
        rw [if_pos ⟨hl', hsRL⟩]
      have hset := process_observation_sets_side st t o s hps
      have hpre := process_hands_preserves_side t s hsRL rest
        (process_observation st t o).2 hrest_nos
      have hself : process_observation
          (process_hands t (process_observation st t o).2 rest).2 t o =
          ([], (process_hands t (process_observation st t o).2 rest).2) := by
        apply process_observation_self _ t o s hps
        · rw [hpre.1, hset.1]
        · rw [hpre.2.1, hset.2]
      have hr := ih (process_observation st t o).2 hcons.1
      simp only [process_hands]
      rw [hself]
      simp only [List.nil_append]
      rw [hr]

/-- Frame fold: when the cooldown gate already fails at the frame's
timestamp, no Chord is emitted and the timer is untouched. -/
theorem process_hands_no_chord (t : Rat) :
    ∀ (l : List HandObservation) (st : PianoState),
      ¬ t - st.last_chord_time > chord_cooldown →
      (process_hands t st l).1.countP isChord = 0 ∧
      (process_hands t st l).2.last_chord_time = st.last_chord_time := by
  intro l
  induction l with
  | nil => intro st _; simp [process_hands]
  | cons o rest ih =>
    intro st h
    have ho := process_observation_no_chord st t o h
    have hr := ih (process_observation st t o).2 (by rw [ho.2]; exact h)
    simp only [process_hands]
    refine ⟨?_, by rw [hr.2, ho.2]⟩
    rw [List.countP_append, ho.1, hr.1]

/-- Frame fold: the shared timer is written with the frame's timestamp
exactly when a Chord is emitted, and untouched otherwise. -/
theorem process_hands_chord_lct (t : Rat) :
    ∀ (l : List HandObservation) (st : PianoState),
      ((process_hands t st l).1.countP isChord = 0 →
        (process_hands t st l).2.last_chord_time = st.last_chord_time) ∧
      ((process_hands t st l).1.countP isChord ≠ 0 →
        (process_hands t st l).2.last_chord_time = t) := by
  intro l
  induction l with
  | nil => intro st; simp [process_hands]
  | cons o rest ih =>
    intro st
    have ho := process_observation_chord st t o
    have hr := ih (process_observation st t o).2
    simp only [process_hands, List.countP_append]
    constructor
    · intro hz
      have h1 : (process_observation st t o).1.countP isChord = 0 := by omega
      have h2 : (process_hands t (process_observation st t o).2 rest).1.countP isChord = 0 := by
        omega
      rw [hr.1 h2, ho.1 h1]
    · intro hnz
      by_cases h2 : (process_hands t (process_observation st t o).2 rest).1.countP isChord = 0
      · have h1 : (process_observation st t o).1.countP isChord ≠ 0 := by omega
        rw [hr.1 h2, ho.2.1 h1]
      · exact hr.2 h2

/-- Frame fold: at most one Chord is emitted per frame, because the first
Chord writes the timer to the frame's timestamp and zero elapsed time
never passes the cooldown gate. -/
theorem process_hands_at_most_one_chord (t : Rat) :
    ∀ (l : List HandObservation) (st : PianoState),
      (process_hands t st l).1.countP isChord ≤ 1 := by
  intro l
  induction l with
  | nil => intro st; simp [process_hands]
  | cons o rest ih =>
    intro st
    have ho := process_observation_chord st t o
    simp only [process_hands, List.countP_append]
    by_cases h1 : (process_observation st t o).1.countP isChord = 0
    · rw [h1]
      simpa using ih (process_observation st t o).2
    · have hc1 : (process_observation st t o).1.countP isChord = 1 := by
        have := ho.2.2
        omega
      have hlct : (process_observation st t o).2.last_chord_time = t := ho.2.1 h1
      have hrest : (process_hands t (process_observation st t o).2 rest).1.countP isChord = 0 := by
        have := process_hands_no_chord t rest (process_observation st t o).2
          (by rw [hlct]; exact not_zero_elapsed t)
        exact this.1
      omega

/-- A one-observation frame is exactly one pass of the observation body. -/
theorem process_frame_single (st : PianoState) (o : HandObservation) (t : Rat) :
    process_frame st [o] t = process_observation st t o := by
  simp [process_frame, process_hands]

/-- A two-observation frame is the sequential composition of the two
observation bodies. -/
theorem process_frame_pair (st : PianoState) (o1 o2 : HandObservation) (t : Rat) :
    process_frame st [o1, o2] t =
      ((process_observation st t o1).1 ++
          (process_observation (process_observation st t o1).2 t o2).1,
       (process_observation (process_observation st t o1).2 t o2).2) := by
  simp [process_frame, process_hands]

/-- Rewriting form of the Right dispatch. -/
theorem process_observation_right_eq (st : PianoState) (t : Rat)
    (o : HandObservation) (h : processed_side o = some "Right") :
    process_observation st t o = process_hand_right st (fingers_up o.landmarks "Right") t := by
  obtain ⟨-, -, hc⟩ := process_observation_processed st t o "Right" h
  rcases hc with ⟨-, heq⟩ | ⟨hs, -⟩
  · exact heq
  · exact absurd hs (by decide)

/-- Rewriting form of the Left dispatch. -/
theorem process_observation_left_eq (st : PianoState) (t : Rat)
    (o : HandObservation) (h : processed_side o = some "Left") :
    process_observation st t o = process_hand_left st (fingers_up o.landmarks "Left") t := by
  obtain ⟨-, -, hc⟩ := process_observation_processed st t o "Left" h
  rcases hc with ⟨hs, -⟩ | ⟨-, heq⟩
  · exact absurd hs (by decide)
  · exact heq

/-- Rewriting form of the Right branch when the chord gate passes. -/
theorem process_hand_right_pos_eq (st : PianoState) (fingers : List Bool) (t : Rat)
    (h1 : is_fist fingers = true) (h2 : st.last_fist_right = false)
    (h3 : t - st.last_chord_time > chord_cooldown) :
    process_hand_right st fingers t =
      (finger_note_events right_hand_notes st.previous_fingers_right fingers 0 ++
          [NoteEvent.chord right_hand_notes],
       { st with previous_fingers_right := fingers,
                 last_fist_right := is_fist fingers,
                 last_chord_time := t }) := by
  simp only [process_hand_right]
  rw [if_pos ⟨h1, h2, h3⟩]

/-- Rewriting form of the Right branch when the chord gate fails. -/
theorem process_hand_right_neg_eq (st : PianoState) (fingers : List Bool) (t : Rat)
    (h : ¬(is_fist fingers = true ∧ st.last_fist_right = false ∧
        t - st.last_chord_time > chord_cooldown)) :
    process_hand_right st fingers t =
      (finger_note_events right_hand_notes st.previous_fingers_right fingers 0,
       { st with previous_fingers_right := fingers, last_fist_right := is_fist fingers }) := by
  simp only [process_hand_right]
  rw [if_neg h]
  simp

/-- Rewriting form of the Left branch when the chord gate passes. -/
theorem process_hand_left_pos_eq (st : PianoState) (fingers : List Bool) (t : Rat)
    (h1 : is_fist fingers = true) (h2 : st.last_fist_left = false)
    (h3 : t - st.last_chord_time > chord_cooldown) :
    process_hand_left st fingers t =
      (finger_note_events left_hand_notes.reverse st.previous_fingers_left fingers 0 ++
          [NoteEvent.chord left_hand_notes],
       { st with previous_fingers_left := fingers,
                 last_fist_left := is_fist fingers,
                 last_chord_time := t }) := by
  simp only [process_hand_left]
  rw [if_pos ⟨h1, h2, h3⟩]

/-- Rewriting form of the Left branch when the chord gate fails. -/
theorem process_hand_left_neg_eq (st : PianoState) (fingers : List Bool) (t : Rat)
    (h : ¬(is_fist fingers = true ∧ st.last_fist_left = false ∧
        t - st.last_chord_time > chord_cooldown)) :
    process_hand_left st fingers t =
      (finger_note_events left_hand_notes.reverse st.previous_fingers_left fingers 0,
       { st with previous_fingers_left := fingers, last_fist_left := is_fist fingers }) := by
  simp only [process_hand_left]
  rw [if_neg h]
  simp

/-! ### Claim theorems -/

/-- C9: for an observation with an empty landmark list (absent hand), the
finger-state extractor does not fail and returns all five flags false,
whatever the hand label. -/
theorem c9_empty_landmarks (ht : String) :
    fingers_up [] ht = [false, false, false, false, false] := by
  simp [fingers_up]

/-- C4: `note_for` sends Right-hand finger indices 0..4 in order into the
Right sequence and Left-hand finger index i to element (4 - i) of the Left
sequence, and both five-note sequences are ascending in the frequency
table of `SoundPlayer`. -/
theorem c4_note_mapping :
    (∀ i < 5, note_for "Right" i = right_hand_notes.getD i "") ∧
    (∀ i < 5, note_for "Left" i = left_hand_notes.getD (4 - i) "") ∧
    (∀ j < 5, ∀ i < j, freq (right_hand_notes.getD i "") <
      freq (right_hand_notes.getD j "")) ∧
    (∀ j < 5, ∀ i < j, freq (left_hand_notes.getD i "") <
      freq (left_hand_notes.getD j "")) := by
  decide

/-- Witness for C4 at finger index 1 of the Left hand. -/
theorem c4_witness : note_for "Left" 1 = left_hand_notes.getD 3 "" :=
  c4_note_mapping.2.1 1 (by decide)

/-- C6: on a well-formed 21-landmark observation, the thumb flag compares
tip x (landmark 4) against base x (landmark 2) — strictly, direction
depending on the side — and each other finger flag i in 1..4 is true iff
the fingertip's y is strictly smaller than the y of the landmark two
positions below the tip. -/
theorem c6_fingers_up_geometry (lms : List Landmark) (h : lms.length = 21) :
    ((fingers_up lms "Right").getD 0 false = true ↔
      (lmGet lms 4).x < (lmGet lms 2).x) ∧
    ((fingers_up lms "Left").getD 0 false = true ↔
      (lmGet lms 2).x < (lmGet lms 4).x) ∧
    (∀ ht, ht = "Right" ∨ ht = "Left" →
      ((fingers_up lms ht).getD 1 false = true ↔ (lmGet lms 8).y < (lmGet lms 6).y) ∧
      ((fingers_up lms ht).getD 2 false = true ↔ (lmGet lms 12).y < (lmGet lms 10).y) ∧
      ((fingers_up lms ht).getD 3 false = true ↔ (lmGet lms 16).y < (lmGet lms 14).y) ∧
      ((fingers_up lms ht).getD 4 false = true ↔ (lmGet lms 20).y < (lmGet lms 18).y)) := by
  have hne : lms ≠ [] := by
    intro he; rw [he] at h; simp at h
  refine ⟨?_, ?_, ?_⟩
  · simp [fingers_up, hne, finger_tips, finger_bases]
  · simp [fingers_up, hne, finger_tips, finger_bases]
  · intro ht hht
    rcases hht with h1 | h1 <;> subst h1 <;>
      exact ⟨by simp [fingers_up, hne, finger_tips],
        by simp [fingers_up, hne, finger_tips],
        by simp [fingers_up, hne, finger_tips],
        by simp [fingers_up, hne, finger_tips]⟩

/-- Witness for C6 on the concrete open right hand. -/
theorem c6_witness :
    (fingers_up open_right_hand "Right").getD 0 false = true ↔
      (lmGet open_right_hand 4).x < (lmGet open_right_hand 2).x :=
  (c6_fingers_up_geometry open_right_hand (by decide)).1

/-- C5 counterexample: with two Right-labelled observations in one frame
(open hand first, fist second) the second is NOT ignored: the frame emits
a NoteOff (impossible from the all-false initial previous vector if only
the first, all-up observation were processed) and persists the second
observation's all-false finger vector. -/
theorem c5_counterexample :
    NoteEvent.noteOff "la4" ∈
      (process_frame initState [obs_open_right, obs_closed_right] (1/2)).1 ∧
    (process_frame initState [obs_open_right, obs_closed_right] (1/2)).2.previous_fingers_right
      = [false, false, false, false, false] ∧
    fingers_up open_right_hand "Right" = [true, true, true, true, true] := by
  decide

/-- C5 amended: within a frame the first two observations are processed
sequentially in encounter order, each diffed against the state as updated
by earlier observations of the same frame (so a duplicate side label is
processed twice, not ignored); observations beyond the first two are
ignored. -/
theorem c5_sequential_processing :
    (∀ (st : PianoState) (o1 o2 : HandObservation) (rest : List HandObservation) (t : Rat),
      process_frame st (o1 :: o2 :: rest) t =
        ((process_observation st t o1).1 ++
            (process_observation (process_observation st t o1).2 t o2).1,
         (process_observation (process_observation st t o1).2 t o2).2)) ∧
    (∀ (st : PianoState) (observations : List HandObservation) (t : Rat),
      process_frame st observations t = process_frame st (observations.take 2) t) := by
  constructor
  · intro st o1 o2 rest t
    simp [process_frame, process_hands]
  · intro st observations t
    simp [process_frame, List.take_take]

/-- C7: a side for which no observation of the frame is processed (absent,
empty landmarks, or a label that is not that side) keeps its stored
previous-finger vector and fist flag unchanged, and no event of that side
is emitted in the frame. -/
theorem c7_untouched_side (st : PianoState) (observations : List HandObservation)
    (t : Rat) (side : String) (hside : side = "Right" ∨ side = "Left")
    (h : ∀ o ∈ observations.take 2, ¬(o.hand_type = some side ∧ o.landmarks ≠ [])) :
    side_prev_fingers (process_frame st observations t).2 side =
      side_prev_fingers st side ∧
    side_last_fist (process_frame st observations t).2 side = side_last_fist st side ∧
    ∀ ev ∈ (process_frame st observations t).1, side_event side ev = false :=
  process_hands_preserves_side t side hside (observations.take 2) st h

/-- Witness for C7: a frame containing only a Right observation leaves the
Left state untouched. -/
theorem c7_witness :
    side_prev_fingers (process_frame initState [obs_open_right] 0).2 "Left" =
      side_prev_fingers initState "Left" :=
  (c7_untouched_side initState [obs_open_right] 0 "Left" (Or.inr rfl) (by decide)).1

/-- C10: across one frame, `last_chord_time` is set to the frame's
timestamp when a Chord is emitted and left exactly unchanged when none is
(in particular on a cooldown-suppressed fist-closing edge). -/
theorem c10_last_chord_time (st : PianoState) (observations : List HandObservation)
    (t : Rat) :
    ((process_frame st observations t).1.countP isChord = 0 →
      (process_frame st observations t).2.last_chord_time = st.last_chord_time) ∧
    ((process_frame st observations t).1.countP isChord ≠ 0 →
      (process_frame st observations t).2.last_chord_time = t) := by
  have h := process_hands_chord_lct t (observations.take 2) st
  exact ⟨h.1, h.2⟩

/-- Witness for C10: the initial-state fist close at t = 2 emits a chord
and stamps the timer. -/
theorem c10_witness :
    (process_frame initState [obs_closed_right] 2).2.last_chord_time = 2 := by
  apply (c10_last_chord_time initState [obs_closed_right] 2).2
  rw [process_frame_single, process_observation_right_eq _ _ _ (by decide),
    process_hand_right_pos_eq _ _ _ (by decide) rfl
      (by norm_num [initState, chord_cooldown])]
  simp [List.countP_append, finger_note_events_countP_chord, List.countP_cons, isChord]

/-- The chord tuple of a hand branch contains no NoteOn/NoteOff of any
note. -/
theorem count_note_chord_part (c : Prop) [Decidable c] (ns : List String)
    (t0 t1 : Rat) (n : String) :
    ((if c then ([NoteEvent.chord ns], t0) else ([], t1)).1).count
      (NoteEvent.noteOn n) = 0 ∧
    ((if c then ([NoteEvent.chord ns], t0) else ([], t1)).1).count
      (NoteEvent.noteOff n) = 0 := by
  split <;> simp

/-- C2: per finger and side, a rising edge emits exactly one NoteOn of the
mapped note and no NoteOff of it, a falling edge exactly one NoteOff and
no NoteOn, and an unchanged finger emits neither. -/
theorem c2_finger_edges (st : PianoState) (fingers : List Bool) (t : Rat) (i : Nat)
    (hf : fingers.length = 5) (hr : st.previous_fingers_right.length = 5)
    (hl : st.previous_fingers_left.length = 5) (hi : i < 5) :
    ((process_hand_right st fingers t).1.count (NoteEvent.noteOn (note_for "Right" i)) =
      if fingers.getD i false && !(st.previous_fingers_right.getD i false) then 1 else 0) ∧
    ((process_hand_right st fingers t).1.count (NoteEvent.noteOff (note_for "Right" i)) =
      if !(fingers.getD i false) && st.previous_fingers_right.getD i false then 1 else 0) ∧
    ((process_hand_left st fingers t).1.count (NoteEvent.noteOn (note_for "Left" i)) =
      if fingers.getD i false && !(st.previous_fingers_left.getD i false) then 1 else 0) ∧
    ((process_hand_left st fingers t).1.count (NoteEvent.noteOff (note_for "Left" i)) =
      if !(fingers.getD i false) && st.previous_fingers_left.getD i false then 1 else 0) := by
  obtain ⟨f0, f1, f2, f3, f4, hfe⟩ := list_len5 hf
  obtain ⟨p0, p1, p2, p3, p4, hpe⟩ := list_len5 hr
  obtain ⟨q0, q1, q2, q3, q4, hqe⟩ := list_len5 hl
  subst hfe
  refine ⟨?_, ?_, ?_, ?_⟩
  · simp only [process_hand_right, List.count_append, hpe,
      (count_note_chord_part _ _ _ _ _).1, Nat.add_zero]
    clear hpe
    interval_cases i <;>
      (revert f0 f1 f2 f3 f4 p0 p1 p2 p3 p4; decide)
  · simp only [process_hand_right, List.count_append, hpe,
      (count_note_chord_part _ _ _ _ _).2, Nat.add_zero]
    clear hpe
    interval_cases i <;>
      (revert f0 f1 f2 f3 f4 p0 p1 p2 p3 p4; decide)
  · simp only [process_hand_left, List.count_append, hqe,
      (count_note_chord_part _ _ _ _ _).1, Nat.add_zero]
    clear hqe
    interval_cases i <;>
      (revert f0 f1 f2 f3 f4 q0 q1 q2 q3 q4; decide)
  · simp only [process_hand_left, List.count_append, hqe,
      (count_note_chord_part _ _ _ _ _).2, Nat.add_zero]
    clear hqe
    interval_cases i <;>
      (revert f0 f1 f2 f3 f4 q0 q1 q2 q3 q4; decide)

/-- Witness for C2: from the initial state, raising the Right thumb emits
exactly one NoteOn of its mapped note. -/
theorem c2_witness :
    (process_hand_right initState [true, false, false, false, false] 0).1.count
      (NoteEvent.noteOn (note_for "Right" 0)) = 1 := by
  have h := (c2_finger_edges initState [true, false, false, false, false] 0 0
    (by decide) (by decide) (by decide) (by decide)).1
  simpa [initState] using h

/-- C1 counterexample: a Right chord fires at t = 2 (timer set to 2); the
fist reopens at t = 3 and closes again at t = 3, a fist-closing edge with
exactly 1.0 time-unit elapsed since the last Chord emission — at least the
cooldown, as the claim requires — yet no Chord is emitted, because the
code's gate is the strict `current_time - last_chord_time > chord_cooldown`. -/
theorem c1_counterexample :
    ((process_frame (process_frame initState [obs_open_right] 1).2
        [obs_closed_right] 2).1.countP isChord = 1) ∧
    ((process_frame (process_frame (process_frame initState [obs_open_right] 1).2
        [obs_closed_right] 2).2 [obs_open_right] 3).2.last_chord_time = 2) ∧
    ((process_frame (process_frame (process_frame initState [obs_open_right] 1).2
        [obs_closed_right] 2).2 [obs_open_right] 3).2.last_fist_right = false) ∧
    (is_fist (fingers_up closed_right_hand "Right") = true) ∧
    ((3 : Rat) - 2 ≥ chord_cooldown) ∧
    ((process_frame (process_frame (process_frame (process_frame initState
        [obs_open_right] 1).2 [obs_closed_right] 2).2 [obs_open_right] 3).2
        [obs_closed_right] 3).1.countP isChord = 0) := by
  have e1 : (process_frame initState [obs_open_right] 1).2 =
      ⟨[true, true, true, true, true], [false, false, false, false, false],
        0, false, false⟩ := by
    rw [process_frame_single, process_observation_right_eq _ _ _ (by decide),
      process_hand_right_neg_eq _ _ _ (fun hx => absurd hx.1 (by decide))]
    decide
  have e2 : (process_frame (process_frame initState [obs_open_right] 1).2
      [obs_closed_right] 2).2 =
      ⟨[false, false, false, false, false], [false, false, false, false, false],
        2, true, false⟩ := by
    rw [e1, process_frame_single, process_observation_right_eq _ _ _ (by decide),
      process_hand_right_pos_eq _ _ _ (by decide) (by decide)
        (by norm_num [chord_cooldown])]
    decide
  have e3 : (process_frame (process_frame (process_frame initState
      [obs_open_right] 1).2 [obs_closed_right] 2).2 [obs_open_right] 3).2 =
      ⟨[true, true, true, true, true], [false, false, false, false, false],
        2, false, false⟩ := by
    rw [e2, process_frame_single, process_observation_right_eq _ _ _ (by decide),
      process_hand_right_neg_eq _ _ _ (fun hx => absurd hx.1 (by decide))]
    decide
  refine ⟨?_, ?_, ?_, by decide, by norm_num [chord_cooldown], ?_⟩
  · rw [e1, process_frame_single, process_observation_right_eq _ _ _ (by decide),
      process_hand_right_pos_eq _ _ _ (by decide) (by decide)
        (by norm_num [chord_cooldown])]
    simp [List.countP_append, finger_note_events_countP_chord,
      List.countP_cons, isChord]
  · rw [e3]
  · rw [e3]
  · rw [e3, process_frame_single, process_observation_right_eq _ _ _ (by decide),
      process_hand_right_neg_eq _ _ _
        (by rintro ⟨-, -, hx⟩; norm_num [chord_cooldown] at hx)]
    simp [finger_note_events_countP_chord]

/-- C1 amended: the chord cooldown is a single value shared by both sides
— a frame strictly less than 1.0 time-unit after the last Chord emission
emits no Chord for either side, and at most one Chord is emitted per frame
— and a fist-closing edge for either side emits a Chord as soon as
STRICTLY MORE than 1.0 time-unit has elapsed since the last emission (the
gate is the strict comparison, so exactly 1.0 elapsed does not emit). -/
theorem c1_shared_cooldown :
    (∀ (st : PianoState) (observations : List HandObservation) (t : Rat),
      t - st.last_chord_time < chord_cooldown →
      (process_frame st observations t).1.countP isChord = 0) ∧
    (∀ (st : PianoState) (observations : List HandObservation) (t : Rat),
      (process_frame st observations t).1.countP isChord ≤ 1) ∧
    (∀ (st : PianoState) (fingers : List Bool) (t : Rat),
      is_fist fingers = true → st.last_fist_right = false →
      t - st.last_chord_time > chord_cooldown →
      NoteEvent.chord right_hand_notes ∈ (process_hand_right st fingers t).1 ∧
      (process_hand_right st fingers t).1.countP isChord = 1) ∧
    (∀ (st : PianoState) (fingers : List Bool) (t : Rat),
      is_fist fingers = true → st.last_fist_left = false →
      t - st.last_chord_time > chord_cooldown →
      NoteEvent.chord left_hand_notes ∈ (process_hand_left st fingers t).1 ∧
      (process_hand_left st fingers t).1.countP isChord = 1) := by
  refine ⟨?_, ?_, ?_, ?_⟩
  · intro st observations t h
    exact (process_hands_no_chord t (observations.take 2) st (not_lt_of_lt h)).1
  · intro st observations t
    exact process_hands_at_most_one_chord t (observations.take 2) st
  · intro st fingers t h1 h2 h3
    simp only [process_hand_right]
    rw [if_pos ⟨h1, h2, h3⟩]
    refine ⟨List.mem_append.mpr (Or.inr (by simp)), ?_⟩
    simp [List.countP_append, finger_note_events_countP_chord,
      List.countP_cons, isChord]
  · intro st fingers t h1 h2 h3
    simp only [process_hand_left]
    rw [if_pos ⟨h1, h2, h3⟩]
    refine ⟨List.mem_append.mpr (Or.inr (by simp)), ?_⟩
    simp [List.countP_append, finger_note_events_countP_chord,
      List.countP_cons, isChord]

/-- Witness for C1 (amended): at t = 2 from the initial state, a Right
fist-closing edge emits exactly one Chord. -/
theorem c1_witness :
    NoteEvent.chord right_hand_notes ∈
      (process_hand_right initState [false, false, false, false, false] 2).1 ∧
    (process_hand_right initState [false, false, false, false, false] 2).1.countP
      isChord = 1 :=
  c1_shared_cooldown.2.2.1 initState [false, false, false, false, false] 2
    (by decide) (by decide) (by norm_num [initState, chord_cooldown])

/-- C3 counterexample: starting from the initial state, a Right hand with
all fingers extended followed by all fingers down at t = 0.3 emits exactly
the five NoteOffs and NO Chord event: `last_chord_time` is initialized to
0, so the gate `0.3 - 0 > 1.0` fails and the claimed Chord is suppressed. -/
theorem c3_counterexample :
    (process_frame (process_frame initState [obs_open_right] (1/5)).2
        [obs_closed_right] (3/10)).1 =
      [NoteEvent.noteOff "la4", NoteEvent.noteOff "si4", NoteEvent.noteOff "do5",
       NoteEvent.noteOff "re5", NoteEvent.noteOff "mi5"] ∧
    (process_frame (process_frame initState [obs_open_right] (1/5)).2
        [obs_closed_right] (3/10)).1.countP isChord = 0 := by
  have e1 : (process_frame initState [obs_open_right] (1/5)).2 =
      ⟨[true, true, true, true, true], [false, false, false, false, false],
        0, false, false⟩ := by
    rw [process_frame_single, process_observation_right_eq _ _ _ (by decide),
      process_hand_right_neg_eq _ _ _ (fun hx => absurd hx.1 (by decide))]
    decide
  have ev2 : (process_frame (process_frame initState [obs_open_right] (1/5)).2
      [obs_closed_right] (3/10)).1 =
      [NoteEvent.noteOff "la4", NoteEvent.noteOff "si4", NoteEvent.noteOff "do5",
       NoteEvent.noteOff "re5", NoteEvent.noteOff "mi5"] := by
    rw [e1, process_frame_single, process_observation_right_eq _ _ _ (by decide),
      process_hand_right_neg_eq _ _ _
        (by rintro ⟨-, -, hx⟩; norm_num [chord_cooldown] at hx)]
    decide
  exact ⟨ev2, by rw [ev2]; decide⟩

/-- C3 amended: from the initial state, the 1,1,1,1,1 → 0,0,0,0,0 frame at
t = 0.3 emits exactly the five NoteOff events and no Chord (the initial
`last_chord_time = 0` suppresses chords until the timestamp strictly
exceeds 1.0); afterwards no Chord is emitted at any timestamp ≤ 1.0, and a
fist-closing edge at a timestamp > 1.0 (here 1.5, after reopening at 1.0)
does emit a Chord. -/
theorem c3_initial_cooldown :
    ((process_frame (process_frame initState [obs_open_right] (1/5)).2
        [obs_closed_right] (3/10)).1 =
      [NoteEvent.noteOff "la4", NoteEvent.noteOff "si4", NoteEvent.noteOff "do5",
       NoteEvent.noteOff "re5", NoteEvent.noteOff "mi5"]) ∧
    (∀ (observations : List HandObservation) (t : Rat), t ≤ 1 →
      (process_frame (process_frame (process_frame initState [obs_open_right] (1/5)).2
          [obs_closed_right] (3/10)).2 observations t).1.countP isChord = 0) ∧
    ((process_frame (process_frame (process_frame (process_frame initState
        [obs_open_right] (1/5)).2 [obs_closed_right] (3/10)).2
        [obs_open_right] 1).2 [obs_closed_right] (3/2)).1.countP isChord = 1) := by
  have e1 : (process_frame initState [obs_open_right] (1/5)).2 =
      ⟨[true, true, true, true, true], [false, false, false, false, false],
        0, false, false⟩ := by
    rw [process_frame_single, process_observation_right_eq _ _ _ (by decide),
      process_hand_right_neg_eq _ _ _ (fun hx => absurd hx.1 (by decide))]
    decide
  have e2 : (process_frame (process_frame initState [obs_open_right] (1/5)).2
      [obs_closed_right] (3/10)).2 =
      ⟨[false, false, false, false, false], [false, false, false, false, false],
        0, true, false⟩ := by
    rw [e1, process_frame_single, process_observation_right_eq _ _ _ (by decide),
      process_hand_right_neg_eq _ _ _
        (by rintro ⟨-, -, hx⟩; norm_num [chord_cooldown] at hx)]
    decide
  refine ⟨?_, ?_, ?_⟩
  · rw [e1, process_frame_single, process_observation_right_eq _ _ _ (by decide),
      process_hand_right_neg_eq _ _ _
        (by rintro ⟨-, -, hx⟩; norm_num [chord_cooldown] at hx)]
    decide
  · intro observations t ht
    rw [e2]
    refine (process_hands_no_chord t (observations.take 2) _ ?_).1
    show ¬ t - (0 : Rat) > chord_cooldown
    rw [sub_zero, chord_cooldown]
    exact not_lt.mpr ht
  · have e3 : (process_frame (process_frame (process_frame initState
        [obs_open_right] (1/5)).2 [obs_closed_right] (3/10)).2
        [obs_open_right] 1).2 =
        ⟨[true, true, true, true, true], [false, false, false, false, false],
          0, false, false⟩ := by
      rw [e2, process_frame_single, process_observation_right_eq _ _ _ (by decide),
        process_hand_right_neg_eq _ _ _ (fun hx => absurd hx.1 (by decide))]
      decide
    rw [e3, process_frame_single, process_observation_right_eq _ _ _ (by decide),
      process_hand_right_pos_eq _ _ _ (by decide) (by decide)
        (by norm_num [chord_cooldown])]
    simp [List.countP_append, finger_note_events_countP_chord,
      List.countP_cons, isChord]

/-- Witness for C3 (amended): with no observations at t = 0.5 after the
scenario, no Chord is emitted. -/
theorem c3_witness :
    (process_frame (process_frame (process_frame initState [obs_open_right] (1/5)).2
        [obs_closed_right] (3/10)).2 [] (1/2)).1.countP isChord = 0 :=
  c3_initial_cooldown.2.1 [] (1/2) (by norm_num)

/-- C8 counterexample: with two Right-labelled observations (open hand
then fist) in the same frame, repeating the identical frame at the same
timestamp re-emits all ten NoteOn/NoteOff events on the second call — the
state stored by the second observation re-creates the edges of the first. -/
theorem c8_counterexample :
    (process_frame (process_frame initState [obs_open_right, obs_closed_right] (1/2)).2
        [obs_open_right, obs_closed_right] (1/2)).1.countP isNoteOnOff = 10 := by
  have a1 : process_observation initState (1/2) obs_open_right =
      ([NoteEvent.noteOn "la4", NoteEvent.noteOn "si4", NoteEvent.noteOn "do5",
        NoteEvent.noteOn "re5", NoteEvent.noteOn "mi5"],
       ⟨[true, true, true, true, true], [false, false, false, false, false],
        0, false, false⟩) := by
    rw [process_observation_right_eq _ _ _ (by decide),
      process_hand_right_neg_eq _ _ _ (fun hx => absurd hx.1 (by decide))]
    decide
  have a2 : process_observation
      (⟨[true, true, true, true, true], [false, false, false, false, false],
        0, false, false⟩ : PianoState) (1/2) obs_closed_right =
      ([NoteEvent.noteOff "la4", NoteEvent.noteOff "si4", NoteEvent.noteOff "do5",
        NoteEvent.noteOff "re5", NoteEvent.noteOff "mi5"],
       ⟨[false, false, false, false, false], [false, false, false, false, false],
        0, true, false⟩) := by
    rw [process_observation_right_eq _ _ _ (by decide),
      process_hand_right_neg_eq _ _ _
        (by rintro ⟨-, -, hx⟩; norm_num [chord_cooldown] at hx)]
    decide
  have b1 : process_observation
      (⟨[false, false, false, false, false], [false, false, false, false, false],
        0, true, false⟩ : PianoState) (1/2) obs_open_right =
      ([NoteEvent.noteOn "la4", NoteEvent.noteOn "si4", NoteEvent.noteOn "do5",
        NoteEvent.noteOn "re5", NoteEvent.noteOn "mi5"],
       ⟨[true, true, true, true, true], [false, false, false, false, false],
        0, false, false⟩) := by
    rw [process_observation_right_eq _ _ _ (by decide),
      process_hand_right_neg_eq _ _ _ (fun hx => absurd hx.1 (by decide))]
    decide
  simp only [process_frame_pair, a1, a2, b1]
  decide

/-- C8 amended: when no two of the first two observations of a frame are
processed for the same side, repeating the identical frame with an
unchanged timestamp produces no NoteOn and no NoteOff on the second call
(the stored state already matches, so there are no edges). -/
theorem c8_idempotent (st : PianoState) (observations : List HandObservation)
    (t : Rat) (h : ((observations.take 2).filterMap processed_side).Nodup) :
    (process_frame (process_frame st observations t).2 observations t).1.countP
      isNoteOnOff = 0 := by
  have hr := process_hands_replay t (observations.take 2) st h
  show (process_hands t (process_hands t st (observations.take 2)).2
      (observations.take 2)).1.countP isNoteOnOff = 0
  rw [hr]
  rfl

/-- Witness for C8 (amended): one Right and one Left observation, frame
repeated at the same timestamp: no NoteOn/NoteOff on the second call. -/
theorem c8_witness :
    (process_frame (process_frame initState [obs_open_right, obs_open_left] (1/2)).2
        [obs_open_right, obs_open_left] (1/2)).1.countP isNoteOnOff = 0 :=
  c8_idempotent initState [obs_open_right, obs_open_left] (1/2) (by decide)

/-- Witness for C9 at the "Right" label. -/
theorem c9_witness : fingers_up [] "Right" = [false, false, false, false, false] :=
  c9_empty_landmarks "Right"
